import Mathlib

/-!
Shallow embedding of the link-shortener repository
(PauloSSAragao/linkshortenerproject) and verification of its
specification's claims.

The repository's observable source gives the `links` table schema
(src/db/schema.ts, with a unique index `shortCodeIdx` on `short_code`),
the homepage component `Home` (src/app/page.tsx) and the client
component `AuthRedirect`.  The short-code allocation / resolution core
(Link Store, Code Generator, Redirect Resolver, Click Recorder) is
specified but not implemented in the source, so those operations are
modelled from the specification's contracts.
-/

namespace LinkShortener

/-- A row of the `links` table, following src/db/schema.ts: integer
identity primary key `id`, `user_id`, `short_code`, `original_url`,
`created_at`, `updated_at` (timestamps modelled as `Nat`). -/
structure Link where
  id : Nat
  userId : String
  shortCode : String
  originalUrl : String
  createdAt : Nat
  updatedAt : Nat
deriving DecidableEq, Repr

/-- The Link Store's persistent state: the stored rows plus the next
identity value for the always-generated `id` column. -/
structure LinkStore where
  links : List Link
  nextId : Nat
deriving DecidableEq, Repr

/-- The error taxonomy of the specification (section 7). -/
inductive StoreError where
  | InvalidCode
  | DuplicateCode
  | NotFound
  | Forbidden
  | ExhaustedRetries
deriving DecidableEq, Repr

/-- Whether some stored Link already uses `code` as its short code:
this is the uniqueness check backed by the schema's unique index
`shortCodeIdx` on `short_code`. -/
def hasCode (s : LinkStore) (code : String) : Bool :=
  s.links.any (fun l => l.shortCode == code)

/-- The freshly inserted row: `id` comes from the identity column,
`createdAt` and `updatedAt` are both set to the insertion time. -/
def mkLink (s : LinkStore) (ownerId code url : String) (now : Nat) : Link :=
  { id := s.nextId, userId := ownerId, shortCode := code,
    originalUrl := url, createdAt := now, updatedAt := now }

/-- Modelled from the spec: the Link Store's `create(ownerId, code, url)
-> Link | DuplicateCode` (section 4.2); not implemented in the source.
The whole function is one atomic constrained insert: the uniqueness
check and the insert happen in a single step, matching the schema's
unique index rather than a read-then-write race. -/
def LinkStore.create (s : LinkStore) (ownerId code url : String) (now : Nat) :
    Except StoreError (Link × LinkStore) :=
  if hasCode s code then
    .error .DuplicateCode
  else
    .ok (mkLink s ownerId code url now,
         { links := s.links ++ [mkLink s ownerId code url now],
           nextId := s.nextId + 1 })

/-- Modelled from the spec: the Link Store's `resolve(code) -> Link |
NotFound` (section 4.2); not implemented in the source.  A pure read
keyed by `shortCode`. -/
def LinkStore.resolve (s : LinkStore) (code : String) :
    Except StoreError Link :=
  match s.links.find? (fun l => l.shortCode == code) with
  | some l => .ok l
  | none => .error .NotFound

/-- Modelled from the spec: the Link Store's `update(ownerId, linkId,
url) -> Link | NotFound | Forbidden` (section 4.2); not implemented in
the source.  Ownership mismatch yields `Forbidden` (the spec's primary
policy, applied consistently).  Only `originalUrl` and `updatedAt` of
the addressed row change. -/
def LinkStore.update (s : LinkStore) (callerId : String) (linkId : Nat)
    (url : String) (now : Nat) : Except StoreError (Link × LinkStore) :=
  match s.links.find? (fun l => l.id == linkId) with
  | none => .error .NotFound
  | some l =>
    if l.userId == callerId then
      let upd : Link → Link := fun x =>
        if x.id == linkId then
          { x with originalUrl := url, updatedAt := now }
        else x
      .ok ({ l with originalUrl := url, updatedAt := now },
           { links := s.links.map upd, nextId := s.nextId })
    else
      .error .Forbidden

/-- Modelled from the spec: the Link Store's `delete(ownerId, linkId)
-> () | NotFound | Forbidden` (section 4.2); not implemented in the
source.  Ownership mismatch yields `Forbidden`. -/
def LinkStore.delete (s : LinkStore) (callerId : String) (linkId : Nat) :
    Except StoreError LinkStore :=
  match s.links.find? (fun l => l.id == linkId) with
  | none => .error .NotFound
  | some l =>
    if l.userId == callerId then
      .ok { links := s.links.filter (fun x => !(x.id == linkId)),
            nextId := s.nextId }
    else
      .error .Forbidden

/-- Modelled from the spec: `listByOwner(ownerId) -> sequence of Link`
(section 4.2); not implemented in the source. -/
def LinkStore.listByOwner (s : LinkStore) (ownerId : String) : List Link :=
  s.links.filter (fun l => l.userId == ownerId)

/-- A mutating request against the Link Store, used to speak about
arbitrary sequences of operations. -/
inductive Op where
  | create (ownerId code url : String) (now : Nat)
  | update (callerId : String) (linkId : Nat) (url : String) (now : Nat)
  | delete (callerId : String) (linkId : Nat)
deriving DecidableEq, Repr

/-- Apply one operation to the store; a failed operation leaves the
store unchanged (the store is only written by a successful atomic
operation). -/
def applyOp (s : LinkStore) : Op → LinkStore
  | .create o c u t =>
    match s.create o c u t with
    | .ok (_, s1) => s1
    | .error _ => s
  | .update o i u t =>
    match s.update o i u t with
    | .ok (_, s1) => s1
    | .error _ => s
  | .delete o i =>
    match s.delete o i with
    | .ok s1 => s1
    | .error _ => s

/-- Apply a sequence of operations in order. -/
def applyOps (s : LinkStore) (ops : List Op) : LinkStore :=
  ops.foldl applyOp s

/-- The store-layer uniqueness invariant: no two stored rows share a
short code (the schema's unique index `shortCodeIdx`). -/
def codesNodup (s : LinkStore) : Prop :=
  (s.links.map Link.shortCode).Nodup

instance (s : LinkStore) : Decidable (codesNodup s) := by
  unfold codesNodup; infer_instance

/-- Modelled from the spec: N concurrent `create` calls racing on the
same custom code serialize at the store's atomic uniqueness constraint
(section 5), so any interleaving behaves as some sequential order of
the requests.  `runCreates` applies the requests (owner, url, time
triples) in that order and collects every caller-visible outcome
together with the final store. -/
def runCreates : LinkStore → String → List (String × String × Nat) →
    List (Except StoreError Link) × LinkStore
  | s, _, [] => ([], s)
  | s, code, (o, u, t) :: rest =>
    match s.create o code u t with
    | .ok (l, s1) =>
      let p := runCreates s1 code rest
      (.ok l :: p.1, p.2)
    | .error e =>
      let p := runCreates s code rest
      (.error e :: p.1, p.2)

/-- Whether a `create` outcome is a success. -/
def isOkResult : Except StoreError Link → Bool
  | .ok _ => true
  | .error _ => false

/-- Whether a `create` outcome is a `DuplicateCode` failure. -/
def isDuplicateResult : Except StoreError Link → Bool
  | .error .DuplicateCode => true
  | _ => false

/-- Modelled from the spec: the Code Generator's auto-generation loop
(section 4.1); not implemented in the source.  `draws` is the bounded
sequence of random draws (its length is the maximum retry count): each
draw is checked against the store's uniqueness constraint; a collision
triggers a retry with the next draw; when the draws are exhausted the
generator fails with `ExhaustedRetries`. -/
def generate (s : LinkStore) : List String → Except StoreError String
  | [] => .error .ExhaustedRetries
  | d :: rest => if hasCode s d then generate s rest else .ok d

/-- A recorded visit, following the spec's ClickEvent data model:
`linkId` (the stable foreign key), `timestamp`, optional coarse
`metadata`. -/
structure ClickEvent where
  linkId : Nat
  timestamp : Nat
  metadata : Option String
deriving DecidableEq, Repr

/-- Outcome of the Redirect Resolver. -/
inductive RedirectResult where
  | target (url : String)
  | notFound
deriving DecidableEq, Repr

/-- Modelled from the spec: the Redirect Resolver's `redirect(code) ->
TargetUrl | NotFound` (section 4.3); not implemented in the source.  On
a hit it enqueues a ClickEvent on the recorder queue (the asynchronous
fire-and-forget hand-off, modelled as the queue extension) and returns
the target URL; on a miss it returns `notFound` and leaves the queue
alone. -/
def redirect (s : LinkStore) (code : String) (queue : List ClickEvent)
    (now : Nat) (meta : Option String) :
    RedirectResult × List ClickEvent :=
  match s.resolve code with
  | .ok l => (.target l.originalUrl, queue ++ [⟨l.id, now, meta⟩])
  | .error _ => (.notFound, queue)

/-- Outcome of rendering the homepage. -/
inductive HomeOutcome where
  | redirectTo (path : String)
  | renderMarketing
deriving DecidableEq, Repr

/-- The `Home` server component of src/app/page.tsx: it reads `userId`
from the authentication provider; a non-null `userId` triggers
`redirect('/dashboard')` (which aborts rendering), otherwise the
marketing page is rendered. -/
def Home (userId : Option String) : HomeOutcome :=
  match userId with
  | some _ => .redirectTo "/dashboard"
  | none => .renderMarketing

/-- A client-side router action issued by `AuthRedirect`. -/
inductive RouterAction where
  | refresh
  | push (path : String)
deriving DecidableEq, Repr

/-- The `AuthRedirect` client component: it always renders `null`
(modelled as the first component, `none`), and its effect runs
`router.refresh()` followed by `router.push('/dashboard')` exactly when
Clerk has finished loading and the user is signed in. -/
def AuthRedirect (isLoaded isSignedIn : Bool) :
    Option String × List RouterAction :=
  (none,
   if isLoaded && isSignedIn then [.refresh, .push "/dashboard"] else [])

/-- An empty store, used as a concrete starting state. -/
def emptyStore : LinkStore := { links := [], nextId := 0 }

/-- A concrete stored row used to instantiate theorems. -/
def demoLink : Link :=
  { id := 0, userId := "alice", shortCode := "promo1",
    originalUrl := "https://example.com/page",
    createdAt := 1, updatedAt := 1 }

/-- A concrete one-row store used to instantiate theorems. -/
def demoStore : LinkStore := { links := [demoLink], nextId := 1 }

/-- The demo row after its owner updates the target URL at time 7. -/
def demoUpdated : Link :=
  { demoLink with originalUrl := "https://example.com/new", updatedAt := 7 }

/-- The demo store after that update. -/
def demoStoreUpdated : LinkStore := { links := [demoUpdated], nextId := 1 }

/-! Basic facts about the store operations. -/

theorem hasCode_eq_false_iff (s : LinkStore) (code : String) :
    hasCode s code = false ↔ ∀ l ∈ s.links, l.shortCode ≠ code := by
  simp [hasCode, List.any_eq_false]

theorem find?_code_eq_none (s : LinkStore) (code : String)
    (h : hasCode s code = false) :
    s.links.find? (fun l => l.shortCode == code) = none := by
  rw [List.find?_eq_none]
  intro l hl
  simpa using (hasCode_eq_false_iff s code).mp h l hl

theorem create_duplicate (s : LinkStore) (o code u : String) (t : Nat)
    (h : hasCode s code = true) :
    s.create o code u t = .error .DuplicateCode := by
  simp [LinkStore.create, h]

theorem create_ok (s : LinkStore) (o code u : String) (t : Nat)
    (h : hasCode s code = false) :
    s.create o code u t =
      .ok (mkLink s o code u t,
           { links := s.links ++ [mkLink s o code u t],
             nextId := s.nextId + 1 }) := by
  simp [LinkStore.create, h]

theorem hasCode_after_create (s : LinkStore) (o code u : String) (t : Nat) :
    hasCode { links := s.links ++ [mkLink s o code u t],
              nextId := s.nextId + 1 } code = true := by
  simp [hasCode, mkLink]

/-- Every operation preserves the store-layer uniqueness invariant. -/
theorem codesNodup_applyOp (s : LinkStore) (op : Op) (h : codesNodup s) :
    codesNodup (applyOp s op) := by
  cases op with
  | create o c u t =>
    by_cases hc : hasCode s c = true
    · simp only [applyOp, create_duplicate s o c u t hc]
      exact h
    · have hc' : hasCode s c = false := by simpa using hc
      simp only [applyOp, create_ok s o c u t hc']
      unfold codesNodup at h ⊢
      simp only [List.map_append, List.map_cons, List.map_nil]
      rw [List.nodup_append]
      refine ⟨h, List.nodup_singleton _, ?_⟩
      intro x hx hy
      simp only [List.mem_singleton] at hy
      rcases List.mem_map.mp hx with ⟨l, hl, hlx⟩
      rw [hy] at hlx
      exact (hasCode_eq_false_iff s c).mp hc' l hl
        (by simpa [mkLink] using hlx)
  | update o i u t =>
    cases hf : s.links.find? (fun l => l.id == i) with
    | none =>
      simp only [applyOp, LinkStore.update, hf]
      exact h
    | some l =>
      by_cases ho : (l.userId == o) = true
      · simp only [applyOp, LinkStore.update, hf, ho, if_true]
        unfold codesNodup at h ⊢
        simp only [List.map_map]
        have hmap : ∀ x ∈ s.links,
            (Link.shortCode ∘ fun x =>
              if x.id == i then { x with originalUrl := u, updatedAt := t }
              else x) x = Link.shortCode x := by
          intro x _
          by_cases hxi : (x.id == i) = true <;> simp [hxi, Function.comp]
        rw [List.map_congr_left hmap]
        exact h
      · simp only [applyOp, LinkStore.update, hf, ho, if_false]
        exact h
  | delete o i =>
    cases hf : s.links.find? (fun l => l.id == i) with
    | none =>
      simp only [applyOp, LinkStore.delete, hf]
      exact h
    | some l =>
      by_cases ho : (l.userId == o) = true
      · simp only [applyOp, LinkStore.delete, hf, ho, if_true]
        unfold codesNodup at h ⊢
        exact List.Nodup.sublist
          (List.Sublist.map Link.shortCode (List.filter_sublist s.links)) h
      · simp only [applyOp, LinkStore.delete, hf, ho, if_false]
        exact h

/-- C1: at every instant at most one stored Link has a given shortCode;
the uniqueness is a store-layer invariant (backed by the schema's unique
index `shortCodeIdx`) preserved by every sequence of create, update and
delete operations. -/
theorem shortCode_unique_invariant (s : LinkStore) (ops : List Op)
    (h : codesNodup s) : codesNodup (applyOps s ops) := by
  induction ops generalizing s with
  | nil => exact h
  | cons op rest ih =>
    exact ih (applyOp s op) (codesNodup_applyOp s op h)

theorem shortCode_unique_invariant_witness :
    codesNodup ({ links := [], nextId := 0 } : LinkStore) ∧
    codesNodup (applyOps { links := [], nextId := 0 }
      [Op.create "alice" "promo1" "https://example.com/page" 1,
       Op.create "bob" "promo1" "https://example.org/x" 2,
       Op.create "bob" "promo2" "https://example.org/y" 3,
       Op.update "alice" 0 "https://example.com/new" 4,
       Op.delete "bob" 1]) :=
  ⟨by decide, shortCode_unique_invariant _ _ (by decide)⟩

/-- Once the code is taken, every further create attempt on it fails
with `DuplicateCode` and the store stays unchanged. -/
theorem runCreates_all_duplicate (code : String)
    (reqs : List (String × String × Nat)) (s : LinkStore)
    (h : hasCode s code = true) :
    runCreates s code reqs =
      (reqs.map (fun _ => .error .DuplicateCode), s) := by
  induction reqs generalizing s with
  | nil => rfl
  | cons r rest ih =>
    obtain ⟨o, u, t⟩ := r
    simp only [runCreates, create_duplicate s o code u t h, List.map_cons]
    rw [ih s h]

/-- C2: create is atomic with respect to the shortCode uniqueness
constraint: among N serialized create requests racing on the same code,
exactly one succeeds, the other N-1 fail with DuplicateCode, and the
final store holds exactly one Link with that code. -/
theorem create_race_exactly_one_success (s : LinkStore) (code : String)
    (reqs : List (String × String × Nat))
    (h0 : hasCode s code = false) (hne : reqs ≠ []) :
    ((runCreates s code reqs).1.filter isOkResult).length = 1 ∧
    ((runCreates s code reqs).1.filter isDuplicateResult).length
      = reqs.length - 1 ∧
    ((runCreates s code reqs).2.links.filter
      (fun l => l.shortCode == code)).length = 1 := by
  cases reqs with
  | nil => exact absurd rfl hne
  | cons r rest =>
    obtain ⟨o, u, t⟩ := r
    have h1 : hasCode
        ({ links := s.links ++ [mkLink s o code u t],
           nextId := s.nextId + 1 } : LinkStore) code = true :=
      hasCode_after_create s o code u t
    simp only [runCreates, create_ok s o code u t h0,
      runCreates_all_duplicate code rest _ h1]
    have hmapOk :
        ((rest.map (fun _ =>
            (.error .DuplicateCode : Except StoreError Link))).filter
          isOkResult) = [] := by
      rw [List.filter_eq_nil_iff]
      intro a ha
      rcases List.mem_map.mp ha with ⟨_, _, rfl⟩
      simp [isOkResult]
    have hmapDup :
        ((rest.map (fun _ =>
            (.error .DuplicateCode : Except StoreError Link))).filter
          isDuplicateResult)
          = rest.map (fun _ => .error .DuplicateCode) := by
      rw [List.filter_eq_self]
      intro a ha
      rcases List.mem_map.mp ha with ⟨_, _, rfl⟩
      simp [isDuplicateResult]
    have hold : s.links.filter (fun l => l.shortCode == code) = [] := by
      rw [List.filter_eq_nil_iff]
      intro l hl
      simpa using (hasCode_eq_false_iff s code).mp h0 l hl
    refine ⟨?_, ?_, ?_⟩
    · simp [List.filter_cons, isOkResult, hmapOk]
    · simp [List.filter_cons, isDuplicateResult, hmapDup]
    · simp [List.filter_append, List.filter_cons, hold, mkLink]

theorem create_race_witness :
    ((runCreates emptyStore "promo1"
        [("alice", "https://a.example", 1), ("bob", "https://b.example", 2),
         ("carol", "https://c.example", 3)]).1.filter isOkResult).length
      = 1 ∧
    ((runCreates emptyStore "promo1"
        [("alice", "https://a.example", 1), ("bob", "https://b.example", 2),
         ("carol", "https://c.example", 3)]).1.filter
      isDuplicateResult).length = 3 - 1 ∧
    ((runCreates emptyStore "promo1"
        [("alice", "https://a.example", 1), ("bob", "https://b.example", 2),
         ("carol", "https://c.example", 3)]).2.links.filter
      (fun l => l.shortCode == "promo1")).length = 1 :=
  create_race_exactly_one_success emptyStore "promo1"
    [("alice", "https://a.example", 1), ("bob", "https://b.example", 2),
     ("carol", "https://c.example", 3)] (by decide) (by decide)

/-- C3: a successful create(ownerId, code, url) followed by resolve on
the returned code yields a Link with that ownerId and that target
URL. -/
theorem create_then_resolve (s : LinkStore) (o c u : String) (t : Nat)
    (l : Link) (s1 : LinkStore)
    (h : s.create o c u t = .ok (l, s1)) :
    s1.resolve c = .ok l ∧ l.userId = o ∧ l.originalUrl = u := by
  by_cases hc : hasCode s c = true
  · rw [create_duplicate s o c u t hc] at h
    cases h
  · have hc' : hasCode s c = false := by simpa using hc
    rw [create_ok s o c u t hc'] at h
    simp only [Except.ok.injEq, Prod.mk.injEq] at h
    obtain ⟨hl, hs1⟩ := h
    subst hl
    subst hs1
    refine ⟨?_, rfl, rfl⟩
    simp only [LinkStore.resolve]
    rw [List.find?_append, find?_code_eq_none s c hc']
    simp [mkLink]

theorem create_then_resolve_witness :
    LinkStore.resolve
      { links := [mkLink emptyStore "alice" "promo1"
                    "https://example.com/page" 5],
        nextId := 1 } "promo1"
      = .ok (mkLink emptyStore "alice" "promo1"
              "https://example.com/page" 5) ∧
    (mkLink emptyStore "alice" "promo1"
      "https://example.com/page" 5).userId = "alice" ∧
    (mkLink emptyStore "alice" "promo1"
      "https://example.com/page" 5).originalUrl
      = "https://example.com/page" :=
  create_then_resolve emptyStore "alice" "promo1"
    "https://example.com/page" 5 _ _ rfl

/-- C5: resolve on a code no stored Link carries returns NotFound (and,
resolve being a pure read, it has no effect on the store). -/
theorem resolve_never_issued (s : LinkStore) (code : String)
    (h : ∀ l ∈ s.links, l.shortCode ≠ code) :
    s.resolve code = .error .NotFound := by
  have hf : s.links.find? (fun l => l.shortCode == code) = none := by
    rw [List.find?_eq_none]
    intro l hl
    simpa using h l hl
  simp [LinkStore.resolve, hf]

theorem resolve_never_issued_witness :
    demoStore.resolve "nosuch" = .error .NotFound :=
  resolve_never_issued demoStore "nosuch" (by decide)

/-- C6: update and delete by a caller who is not the Link's owner
return Forbidden (the store's consistently applied policy) and leave
the store, hence the Link, unchanged. -/
theorem nonowner_update_delete_forbidden (s : LinkStore)
    (caller : String) (i : Nat) (url : String) (now : Nat) (l : Link)
    (hf : s.links.find? (fun x => x.id == i) = some l)
    (hown : l.userId ≠ caller) :
    s.update caller i url now = .error .Forbidden ∧
    s.delete caller i = .error .Forbidden ∧
    applyOp s (Op.update caller i url now) = s ∧
    applyOp s (Op.delete caller i) = s := by
  have ho : (l.userId == caller) = false := by simpa using hown
  refine ⟨?_, ?_, ?_, ?_⟩
  · simp [LinkStore.update, hf, ho]
  · simp [LinkStore.delete, hf, ho]
  · simp [applyOp, LinkStore.update, hf, ho]
  · simp [applyOp, LinkStore.delete, hf, ho]

theorem nonowner_update_delete_forbidden_witness :
    demoStore.update "mallory" 0 "https://evil.example" 9
      = .error .Forbidden ∧
    demoStore.delete "mallory" 0 = .error .Forbidden ∧
    applyOp demoStore (Op.update "mallory" 0 "https://evil.example" 9)
      = demoStore ∧
    applyOp demoStore (Op.delete "mallory" 0) = demoStore :=
  nonowner_update_delete_forbidden demoStore "mallory" 0
    "https://evil.example" 9 demoLink (by decide) (by decide)

/-- The resolver's only failure is `NotFound`. -/
theorem resolve_error_eq_notFound (s : LinkStore) (code : String)
    (e : StoreError) (h : s.resolve code = .error e) : e = .NotFound := by
  unfold LinkStore.resolve at h
  cases hf : s.links.find? (fun l => l.shortCode == code) with
  | some l =>
    rw [hf] at h
    cases h
  | none =>
    rw [hf] at h
    injection h with h
    exact h.symm

/-- C4: redirect(code) queries resolve; on a hit it returns the link's
target URL and appends one ClickEvent for that link to the recorder
queue (the fire-and-forget hand-off), on a miss it returns notFound and
leaves the queue untouched — and these are the only two outcomes. -/
theorem redirect_hit_or_miss (s : LinkStore) (code : String)
    (queue : List ClickEvent) (now : Nat) (meta : Option String) :
    (∃ l, s.resolve code = .ok l ∧
      redirect s code queue now meta
        = (.target l.originalUrl, queue ++ [⟨l.id, now, meta⟩])) ∨
    (s.resolve code = .error .NotFound ∧
      redirect s code queue now meta = (.notFound, queue)) := by
  cases hr : s.resolve code with
  | ok l => exact Or.inl ⟨l, rfl, by simp [redirect, hr]⟩
  | error e =>
    have he := resolve_error_eq_notFound s code e hr
    subst he
    exact Or.inr ⟨rfl, by simp [redirect, hr]⟩

/-- When every draw collides, the generator reports ExhaustedRetries. -/
theorem generate_all_collide (s : LinkStore) :
    ∀ draws : List String, (∀ d ∈ draws, hasCode s d = true) →
      generate s draws = .error .ExhaustedRetries
  | [], _ => rfl
  | d :: rest, h => by
    have hd : hasCode s d = true := h d (List.mem_cons_self d rest)
    simp only [generate, hd, if_true]
    exact generate_all_collide s rest
      (fun x hx => h x (List.mem_cons_of_mem d hx))

/-- The generator's only failure is ExhaustedRetries: a DuplicateCode
collision is always retried internally, never surfaced. -/
theorem generate_error_eq (s : LinkStore) :
    ∀ (draws : List String) (e : StoreError),
      generate s draws = .error e → e = .ExhaustedRetries
  | [], e, h => by
    injection h with h
    exact h.symm
  | d :: rest, e, h => by
    by_cases hd : hasCode s d = true
    · simp only [generate, hd, if_true] at h
      exact generate_error_eq s rest e h
    · have hd' : hasCode s d = false := by simpa using hd
      simp [generate, hd'] at h

/-- A successfully generated code is one of the bounded draws and is
free in the store. -/
theorem generate_ok_spec (s : LinkStore) :
    ∀ (draws : List String) (c : String), generate s draws = .ok c →
      c ∈ draws ∧ hasCode s c = false
  | [], c, h => by simp [generate] at h
  | d :: rest, c, h => by
    by_cases hd : hasCode s d = true
    · simp only [generate, hd, if_true] at h
      obtain ⟨hm, hc⟩ := generate_ok_spec s rest c h
      exact ⟨List.mem_cons_of_mem d hm, hc⟩
    · have hd' : hasCode s d = false := by simpa using hd
      simp only [generate, hd', Bool.false_eq_true, if_false,
        Except.ok.injEq] at h
      subst h
      exact ⟨List.mem_cons_self d rest, hd'⟩

/-- C7: auto-generation retries on each collision through the bounded
list of draws; DuplicateCode is never surfaced (the only failure is
ExhaustedRetries, reached exactly when every draw collides), and a
produced code has the configured draw length — the generator never
silently lengthens the code. -/
theorem generate_retries_bounded (s : LinkStore) (draws : List String)
    (n : Nat) (hlen : ∀ d ∈ draws, d.length = n) :
    (∀ e, generate s draws = .error e → e = .ExhaustedRetries) ∧
    (∀ c, generate s draws = .ok c →
      c.length = n ∧ hasCode s c = false) ∧
    ((∀ d ∈ draws, hasCode s d = true) →
      generate s draws = .error .ExhaustedRetries) := by
  refine ⟨fun e he => generate_error_eq s draws e he, fun c hc => ?_,
    fun h => generate_all_collide s draws h⟩
  obtain ⟨hm, hfree⟩ := generate_ok_spec s draws c hc
  exact ⟨hlen c hm, hfree⟩

theorem generate_retries_bounded_witness :
    (∀ e, generate demoStore ["promo1", "abc123"] = .error e →
      e = .ExhaustedRetries) ∧
    (∀ c, generate demoStore ["promo1", "abc123"] = .ok c →
      c.length = 6 ∧ hasCode demoStore c = false) ∧
    ((∀ d ∈ ["promo1", "abc123"], hasCode demoStore d = true) →
      generate demoStore ["promo1", "abc123"]
        = .error .ExhaustedRetries) :=
  generate_retries_bounded demoStore ["promo1", "abc123"] 6 (by decide)

/-- C8: id and createdAt are assigned at creation (id from the identity
column, createdAt from the insertion time) and update never changes
them (nor the shortCode), while updatedAt is set to the mutation
time. -/
theorem id_createdAt_immutable (s : LinkStore) :
    (∀ o c u t l s1, s.create o c u t = Except.ok (l, s1) →
      l.id = s.nextId ∧ l.createdAt = t ∧ l.updatedAt = t) ∧
    (∀ caller i url now l l1 s1,
      s.links.find? (fun x => x.id == i) = some l →
      s.update caller i url now = Except.ok (l1, s1) →
      l1.id = l.id ∧ l1.createdAt = l.createdAt ∧
      l1.shortCode = l.shortCode ∧ l1.updatedAt = now) := by
  constructor
  · intro o c u t l s1 h
    by_cases hc : hasCode s c = true
    · rw [create_duplicate s o c u t hc] at h
      cases h
    · have hc' : hasCode s c = false := by simpa using hc
      rw [create_ok s o c u t hc'] at h
      simp only [Except.ok.injEq, Prod.mk.injEq] at h
      obtain ⟨hl, -⟩ := h
      subst hl
      exact ⟨rfl, rfl, rfl⟩
  · intro caller i url now l l1 s1 hf h
    simp only [LinkStore.update, hf] at h
    by_cases ho : (l.userId == caller) = true
    · simp only [ho, if_true, Except.ok.injEq, Prod.mk.injEq] at h
      obtain ⟨hl, -⟩ := h
      subst hl
      exact ⟨rfl, rfl, rfl, rfl⟩
    · simp only [ho, if_false] at h
      cases h

theorem id_createdAt_immutable_witness :
    demoUpdated.id = demoLink.id ∧
    demoUpdated.createdAt = demoLink.createdAt ∧
    demoUpdated.shortCode = demoLink.shortCode ∧
    demoUpdated.updatedAt = 7 :=
  (id_createdAt_immutable demoStore).2 "alice" 0
    "https://example.com/new" 7 demoLink demoUpdated demoStoreUpdated
    rfl rfl

/-- C9: the Home component redirects to /dashboard whenever the
authentication provider supplies a non-null userId, and renders the
marketing page (with no redirect) when userId is null. -/
theorem home_auth_redirect :
    (∀ u : String, Home (some u) = .redirectTo "/dashboard") ∧
    Home none = .renderMarketing :=
  ⟨fun _ => rfl, rfl⟩

/-- C10: AuthRedirect always renders nothing; it issues router actions
only when Clerk has loaded and the user is signed in, and then it
refreshes the router cache before navigating to /dashboard. -/
theorem authRedirect_null_and_gated (isLoaded isSignedIn : Bool) :
    (AuthRedirect isLoaded isSignedIn).1 = none ∧
    ((AuthRedirect isLoaded isSignedIn).2 ≠ [] →
      isLoaded = true ∧ isSignedIn = true) ∧
    (isLoaded = true → isSignedIn = true →
      (AuthRedirect isLoaded isSignedIn).2
        = [.refresh, .push "/dashboard"]) := by
  refine ⟨rfl, ?_, ?_⟩
  · intro hne
    cases isLoaded <;> cases isSignedIn <;>
      simp [AuthRedirect] at hne ⊢
  · intro h1 h2
    subst h1
    subst h2
    rfl

theorem authRedirect_null_and_gated_witness :
    (AuthRedirect true true).1 = none ∧
    (AuthRedirect true true).2
      = [RouterAction.refresh, RouterAction.push "/dashboard"] :=
  ⟨(authRedirect_null_and_gated true true).1,
   (authRedirect_null_and_gated true true).2.2 rfl rfl⟩

end LinkShortener
